import Mathlib

/-!
Verification development for the Ofek video copyright-risk analyzer.

The program (src/server.js) is an Express route `POST /analyze` that
(1) pages a video-search API until 100 results or no continuation token,
normalizing each raw item, (2) chunks the results into batches of 10 and
dispatches each batch to a text-generation classifier, tolerating
per-batch failures, and (3) merges the per-batch analyses into one final
report.  src/test.js is an alternate, non-batched server variant whose
`extractJSON` helper implements a two-stage JSON parse.

This file is a shallow embedding of those functions.  JavaScript strings
are Lean `String`s; values that may be `undefined` in JS are `Option`;
thrown exceptions are `Except String`; the two external services (the
search API and the text-generation API) are abstracted as inputs: a
finite script of page responses, and an oracle mapping each 1-based batch
ordinal to the classifier outcome for that batch.  `Date.now()` is passed
in as a parameter `now`, and `new Date(t).toISOString()` is modelled by
an injective rendering `natIso` of the timestamp (no claim depends on the
exact date format).  Bounded loops that JavaScript drives by list length
are given explicit fuel equal to the list length so that every definition
evaluates by kernel reduction; lemmas discharge the fuel.
-/

namespace Ofek

/-- The three classifier risk levels.  The data-model invariant of the
repository (spec §3, RiskEntry) restricts `risk` to exactly these three
values; an out-of-range value is a classifier-output error, so the
embedding uses an inductive type. -/
inductive Risk where
  | High
  | Medium
  | Low
deriving DecidableEq

/-- One video classification, as produced by the classifier for a batch
(the `ranked_list` entry schema embedded in the prompt,
src/server.js:451). -/
structure RiskEntry where
  videoId : String
  title : String
  channel : String
  publishedAt : String
  risk : Risk
  rationale : List String
deriving DecidableEq

/-- The classifier output schema the prompt requests (src/server.js:445):
keys summary, ranked_list, top_priority, checklist, next_actions,
disclaimer.  This is the shape of a successfully parsed batch response. -/
structure ParsedAnalysis where
  summary : String
  ranked_list : List RiskEntry
  top_priority : List String
  checklist : List String
  next_actions : List String
  disclaimer : String
deriving DecidableEq

/-- One batch's accumulated analysis: a parsed success or the
failure-marked placeholder pushed in the catch branch
(src/server.js:525-534).  In JS a successful parsed object simply lacks
the `batch_failed` key (undefined, falsy), modelled as `false`. -/
structure BatchAnalysis where
  summary : String
  ranked_list : List RiskEntry
  top_priority : List String
  checklist : List String
  next_actions : List String
  disclaimer : String
  batch_failed : Bool
  batch_number : Option Nat
deriving DecidableEq

/-- Wrapping of a successfully parsed classifier response as pushed by
`allAnalyses.push(batchAnalysis)` (src/server.js:501). -/
def mkSuccess (a : ParsedAnalysis) : BatchAnalysis :=
  { summary := a.summary
    ranked_list := a.ranked_list
    top_priority := a.top_priority
    checklist := a.checklist
    next_actions := a.next_actions
    disclaimer := a.disclaimer
    batch_failed := false
    batch_number := none }

/-- The failure-marked placeholder pushed when a batch's classification
throws (src/server.js:525-534). -/
def failedPlaceholder (batchNumber : Nat) : BatchAnalysis :=
  { summary := "Analysis failed for batch " ++ toString batchNumber
    ranked_list := []
    top_priority := []
    checklist := []
    next_actions := []
    disclaimer := "Analysis incomplete due to API error"
    batch_failed := true
    batch_number := some batchNumber }

/-- One failure-detail record pushed to `failedBatches`
(src/server.js:518-522). -/
structure FailedBatch where
  batchNumber : Nat
  error : String
  videosInBatch : Nat
deriving DecidableEq

/-- One normalized video-metadata record (src/server.js:348-357).  Every
field comes from an optional place in the raw API item, so each is an
`Option`; `none` models a JS `undefined` field value.  The `thumbnails`
blob is passed through unexamined and is modelled by its opaque text. -/
structure Video where
  videoId : Option String
  title : Option String
  description : Option String
  channelTitle : Option String
  channelId : Option String
  publishedAt : Option String
  thumbnails : Option String
  publishTime : Option String
deriving DecidableEq

/-- The batch size constant `batchSize = 10` (src/server.js:486). -/
def batchSize : Nat := 10

/-- The 1-based batch ordinal computed from the loop start index:
`Math.floor(i / batchSize) + 1` (src/server.js:494). -/
def batchNumber (i : Nat) : Nat := i / 10 + 1

/-- Fuel-driven worker for the batch slicing performed by the loop
`for (let i = 0; i < N; i += 10) allSearchResults.slice(i, i + 10)`
(src/server.js:493-495).  Each iteration takes the next 10 elements;
fuel at least the list length suffices since every step drops at least
one element. -/
def chunk10Aux {α : Type} : Nat → List α → List (List α)
  | 0, _ => []
  | _, [] => []
  | fuel + 1, x :: xs => ((x :: xs).take 10) :: chunk10Aux fuel ((x :: xs).drop 10)

/-- The list of 10-element batch slices produced by the orchestrator loop
(src/server.js:493-495). -/
def chunk10 {α : Type} (l : List α) : List (List α) := chunk10Aux l.length l

/-- The severity map `riskPriority = { High: 3, Medium: 2, Low: 1 }`
(src/server.js:607). -/
def riskPriority : Risk → Nat
  | .High => 3
  | .Medium => 2
  | .Low => 1

/-- Insertion step of the stable descending sort.  The element `e`
(earlier in the input) is placed before the first element of equal or
lower priority, so equal-risk elements keep their input order. -/
def insertByRisk (e : RiskEntry) : List RiskEntry → List RiskEntry
  | [] => [e]
  | f :: fs =>
    if riskPriority e.risk < riskPriority f.risk then f :: insertByRisk e fs
    else e :: f :: fs

/-- Embedding of `allRankedLists.sort((a, b) => riskPriority[b.risk] -
riskPriority[a.risk])` (src/server.js:608-610).  ECMAScript (ES2019)
requires `Array.prototype.sort` to be stable, and a stable sort under a
consistent comparator is unique, so the call is modelled by a stable
insertion sort in descending `riskPriority` order. -/
def sortByRiskDesc : List RiskEntry → List RiskEntry
  | [] => []
  | e :: es => insertByRisk e (sortByRiskDesc es)

/-- Fuel-driven worker for `[...new Set(allTopPriority)]`
(src/server.js:586): a JS `Set` iterates in insertion order, so the
spread keeps the first occurrence of each id and drops later
duplicates. -/
def dedupFirstAux : Nat → List String → List String
  | 0, _ => []
  | _, [] => []
  | fuel + 1, x :: xs => x :: dedupFirstAux fuel (xs.filter (fun y => y != x))

/-- First-occurrence deduplication, the embedding of
`[...new Set(allTopPriority)]` (src/server.js:586). -/
def dedupFirst (l : List String) : List String := dedupFirstAux l.length l

/-- The default disclaimer used when no successful batch provides one
(src/server.js:592). -/
def defaultDisclaimer : String :=
  "This is an automated risk-assessment, not legal advice; consult counsel before taking legal action."

/-- The final merged analysis returned by `combineAnalyses`
(src/server.js:614-623). -/
structure FinalAnalysis where
  summary : String
  ranked_list : List RiskEntry
  top_priority : List String
  checklist : List String
  next_actions : List String
  disclaimer : String
  batch_count : Nat
  failed_batches : Nat
deriving DecidableEq

/-- Embedding of `combineAnalyses(analyses, totalVideos)`
(src/server.js:578-624).  JS notes: `analysis.ranked_list || []` only
defends against a missing key (the parsed schema always has the lists,
and the placeholder sets them to `[]`); `successfulAnalyses[0]?.checklist
|| []` falls back exactly when there is no successful batch (arrays are
truthy); `successfulAnalyses[0]?.disclaimer || "..."` also replaces an
empty disclaimer string, because `""` is falsy in JS.  `totalVideos` is
only logged, never used in the result. -/
def combineAnalyses (analyses : List BatchAnalysis) (totalVideos : Nat) : FinalAnalysis :=
  let allRankedLists := (analyses.map (fun a => a.ranked_list)).flatten
  let allTopPriority := (analyses.map (fun a => a.top_priority)).flatten
  let uniqueTopPriority := (dedupFirst allTopPriority).take 10
  let successfulAnalyses := analyses.filter (fun a => !a.batch_failed)
  let checklist := match successfulAnalyses with
    | [] => []
    | a :: _ => a.checklist
  let next_actions := match successfulAnalyses with
    | [] => []
    | a :: _ => a.next_actions
  let disclaimer := match successfulAnalyses with
    | [] => defaultDisclaimer
    | a :: _ => if a.disclaimer = "" then defaultDisclaimer else a.disclaimer
  let totalHighRisk := (allRankedLists.filter (fun e => e.risk == Risk.High)).length
  let totalMediumRisk := (allRankedLists.filter (fun e => e.risk == Risk.Medium)).length
  let failedBatches := (analyses.filter (fun a => a.batch_failed)).length
  let summary :=
    "We found " ++ toString (totalHighRisk + totalMediumRisk) ++
      " Movies with Possible infringement. " ++
      (if totalHighRisk > 0 then "Immediate attention recommended for high-risk content."
       else "No immediate high-risk concerns detected.")
  { summary := summary
    ranked_list := sortByRiskDesc allRankedLists
    top_priority := uniqueTopPriority
    checklist := checklist
    next_actions := next_actions
    disclaimer := disclaimer
    batch_count := analyses.length
    failed_batches := failedBatches }

/-- Observable pacing/dispatch events of the batch loop: a classifier
dispatch for a 1-based batch ordinal, or an awaited
`setTimeout(resolve, ms)` sleep. -/
inductive Event where
  | dispatch (batchNumber : Nat)
  | wait (ms : Nat)
deriving DecidableEq

/-- Boolean success test for a classifier outcome. -/
def oracleOk {ε α : Type} : Except ε α → Bool
  | .ok _ => true
  | .error _ => false

/-- Accumulated state of the batch loop: `allAnalyses`, `failedBatches`
(src/server.js:487-488) and the pacing/dispatch trace. -/
structure LoopState where
  allAnalyses : List BatchAnalysis
  failedBatches : List FailedBatch
  trace : List Event
deriving DecidableEq

/-- Fuel-driven embedding of the batch loop (src/server.js:493-536).
`oracle n` is the classifier outcome (`await analyzeBatch(...)`) for the
batch with 1-based ordinal `n`; `totalLen` is `allSearchResults.length`.
On success the loop waits 1000 ms when `i + batchSize <
allSearchResults.length` (src/server.js:505-508); in the catch branch it
records the failure detail and the placeholder and continues with no
wait (src/server.js:509-535). -/
def batchLoopAux (oracle : Nat → Except String ParsedAnalysis) (totalLen : Nat) :
    Nat → List Video → Nat → LoopState
  | 0, _, _ => ⟨[], [], []⟩
  | _, [], _ => ⟨[], [], []⟩
  | fuel + 1, x :: xs, i =>
    let n := batchNumber i
    let batch := (x :: xs).take 10
    let rest := batchLoopAux oracle totalLen fuel ((x :: xs).drop 10) (i + 10)
    match oracle n with
    | .ok a =>
      ⟨mkSuccess a :: rest.allAnalyses, rest.failedBatches,
        Event.dispatch n ::
          ((if i + 10 < totalLen then [Event.wait 1000] else []) ++ rest.trace)⟩
    | .error msg =>
      ⟨failedPlaceholder n :: rest.allAnalyses,
        ⟨n, msg, batch.length⟩ :: rest.failedBatches,
        Event.dispatch n :: rest.trace⟩

/-- The whole batch loop over the fetched videos, starting at index 0
(src/server.js:493). -/
def runBatches (videos : List Video) (oracle : Nat → Except String ParsedAnalysis) :
    LoopState :=
  batchLoopAux oracle videos.length videos.length videos 0

/-- Number of failing classifier outcomes among `count` consecutive
1-based batch ordinals starting at `start`. -/
def failCountFrom (oracle : Nat → Except String ParsedAnalysis) : Nat → Nat → Nat
  | _, 0 => 0
  | start, count + 1 =>
    (if oracleOk (oracle start) then 0 else 1) + failCountFrom oracle (start + 1) count

/-- The `id` sub-object of a raw search item. -/
structure RawId where
  videoId : Option String
deriving DecidableEq

/-- The `snippet` sub-object of a raw search item; every field may be
absent. -/
structure RawSnippet where
  title : Option String
  description : Option String
  channelTitle : Option String
  channelId : Option String
  publishedAt : Option String
  thumbnails : Option String
  publishTime : Option String
deriving DecidableEq

/-- One raw item of a search-API page.  The `id` and `snippet`
sub-objects themselves may be absent (`undefined`), in which case the
normalization's property accesses throw a TypeError. -/
structure RawItem where
  id : Option RawId
  snippet : Option RawSnippet
deriving DecidableEq

/-- One page of the search response: `items` plus the optional
continuation token `nextPageToken`. -/
structure RawPage where
  items : List RawItem
  nextPageToken : Option String
deriving DecidableEq

/-- Embedding of the per-item normalization (src/server.js:348-357).
Reading a property of an absent sub-object throws a TypeError (modelled
as `Except.error` with the first failing read); a present sub-object
with absent fields yields a record whose fields are `none`. -/
def normalizeItem (item : RawItem) : Except String Video :=
  match item.id with
  | none => .error "TypeError: cannot read videoId of undefined"
  | some rid =>
    match item.snippet with
    | none => .error "TypeError: cannot read title of undefined"
    | some s =>
      .ok ⟨rid.videoId, s.title, s.description, s.channelTitle, s.channelId,
        s.publishedAt, s.thumbnails, s.publishTime⟩

/-- Embedding of `searchResponse.data.items.map(...)`
(src/server.js:348): the first throwing item aborts the whole map. -/
def normalizePage (items : List RawItem) : Except String (List Video) :=
  items.mapM normalizeItem

/-- Embedding of the pagination loop (src/server.js:329-374).  `pages` is
the finite script of successive responses of the search service (a
thrown axios error or a page).  The loop accumulates normalized items
and stops once `targetResults = 100` results are reached or a page has
no continuation token; any throw (transport error or normalization
TypeError) escapes to the surrounding catch.  An exhausted script ends
the run with the results so far (the real service always answers, so
claims are stated about runs decided within the script). -/
def fetchPages : List (Except String RawPage) → List Video → Except String (List Video)
  | [], acc => .ok acc
  | r :: rest, acc =>
    match r with
    | .error msg => .error msg
    | .ok page =>
      match normalizePage page.items with
      | .error msg => .error msg
      | .ok vids =>
        let acc2 := acc ++ vids
        if 100 ≤ acc2.length ∨ page.nextPageToken = none then .ok acc2
        else fetchPages rest acc2

/-- Injective rendering of a timestamp, modelling
`new Date(t).toISOString()`; no claim depends on the date format. -/
def natIso (t : Nat) : String := toString t

/-- The mock analysis object (src/server.js:653-681).  Its literal has
the keys of `FinalAnalysis` except `failed_batches`. -/
structure MockAnalysis where
  summary : String
  ranked_list : List RiskEntry
  top_priority : List String
  checklist : List String
  next_actions : List String
  disclaimer : String
  batch_count : Nat
deriving DecidableEq

/-- The mock response object (src/server.js:683-690).  Its literal has
the keys of the real `Report` except `batchesFailed` and
`failedBatchDetails`. -/
structure MockResponse where
  userName : String
  query : String
  totalVideosFound : Nat
  batchesAnalyzed : Nat
  searchResults : List Video
  analysis : MockAnalysis
deriving DecidableEq

/-- The 100 synthetic search results of the mock generator
(src/server.js:633-650), `i` running from 1 to 100. -/
def mockSearchResults (userName channelName : String) (now : Nat) : List Video :=
  (List.range 100).map (fun k =>
    let i := k + 1
    { videoId := some ("mock_video_" ++ toString i)
      title := some (userName ++ " - " ++ channelName ++ " Content " ++ toString i)
      description := some ("This is a description for " ++ userName ++ " " ++
        channelName ++ " video " ++ toString i)
      channelTitle := some (if i % 5 = 0 then channelName
        else "Other Channel " ++ toString i)
      channelId := some ("channel_" ++ toString i)
      publishedAt := some (natIso (now - i * 86400000))
      thumbnails := some ("https://via.placeholder.com/120x90.png?text=Thumbnail+" ++ toString i)
      publishTime := some (natIso (now - i * 86400000)) })

/-- The mock ranked list: `searchResults.slice(0, 20).map(...)` with the
index-based risk assignment (src/server.js:655-665), inlining the fields
of the freshly built search results (all present). -/
def mockRankedList (userName channelName : String) (now : Nat) : List RiskEntry :=
  (List.range 20).map (fun idx =>
    let i := idx + 1
    { videoId := "mock_video_" ++ toString i
      title := userName ++ " - " ++ channelName ++ " Content " ++ toString i
      channel := if i % 5 = 0 then channelName else "Other Channel " ++ toString i
      publishedAt := natIso (now - i * 86400000)
      risk := if idx < 5 then Risk.High else if idx < 10 then Risk.Medium else Risk.Low
      rationale :=
        [if idx < 5 then "Exact title match with original content"
         else "Possible infringement",
         if idx < 5 then "Uploaded by unauthorized channel"
         else "Requires manual verification"] })

/-- Embedding of `generateMockResults(userName, channelName)`
(src/server.js:627-691), with `Date.now()` passed in as `now`. -/
def generateMockResults (userName channelName : String) (now : Nat) : MockResponse :=
  let searchResults := mockSearchResults userName channelName now
  { userName := userName
    query := channelName
    totalVideosFound := 100
    batchesAnalyzed := 10
    searchResults := searchResults
    analysis :=
      { summary := "Based on the search results for " ++ "\"" ++ userName ++ " " ++
          channelName ++ "\"" ++ ", we analyzed 100 videos across 10 batches. " ++
          "Found 15 high-risk, 25 medium-risk, and 60 low-risk videos. " ++
          "Immediate attention recommended for high-risk content."
        ranked_list := mockRankedList userName channelName now
        top_priority := ["mock_video_1", "mock_video_2", "mock_video_3",
          "mock_video_4", "mock_video_5"]
        checklist := ["Open video and compare audio/duration",
          "Check description for rights statement",
          "Check channel About page",
          "Screenshot evidence",
          "Check YouTube Content ID/claims if visible"]
        next_actions := ["Contact rights owner",
          "Use YouTube Studio -> Copyright -> Submit takedown (if owner)",
          "Send polite removal request to uploader (template)"]
        disclaimer := defaultDisclaimer
        batch_count := 10 } }

/-- The real response payload (src/server.js:556-565). -/
structure Report where
  userName : String
  query : String
  totalVideosFound : Nat
  batchesAnalyzed : Nat
  batchesFailed : Nat
  failedBatchDetails : List FailedBatch
  searchResults : List Video
  analysis : FinalAnalysis
deriving DecidableEq

/-- The possible response bodies of the `/analyze` route. -/
inductive RouteBody where
  | errorBody (error : String)
  | errorDetails (error : String) (details : String)
  | reportBody (r : Report)
  | mockBody (m : MockResponse)
deriving DecidableEq

/-- An HTTP outcome of the route: status, body and the classifier
dispatch/pacing trace of the run. -/
structure RouteResult where
  status : Nat
  body : RouteBody
  trace : List Event
deriving DecidableEq

/-- Embedding of the `POST /analyze` handler (src/server.js:304-575).
`hasYoutubeKey`/`hasOpenaiKey` model the presence of the two environment
keys; `pages` scripts the search service; `oracle` gives each batch's
classifier outcome.  JS `!userName` is modelled by emptiness (the only
falsy string).  `res.json(...)` without `res.status(...)` responds
with 200. -/
def analyzeRoute (userName channelName : String) (hasYoutubeKey hasOpenaiKey : Bool)
    (now : Nat) (pages : List (Except String RawPage))
    (oracle : Nat → Except String ParsedAnalysis) : RouteResult :=
  if userName = "" ∨ channelName = "" then
    ⟨400, .errorBody "User name and channel name are required", []⟩
  else if ¬(hasYoutubeKey ∧ hasOpenaiKey) then
    ⟨200, .mockBody (generateMockResults userName channelName now), []⟩
  else
    match fetchPages pages [] with
    | .error msg => ⟨500, .errorBody ("YouTube API error: " ++ msg), []⟩
    | .ok allSearchResults =>
      if allSearchResults.length = 0 then
        ⟨404, .errorBody "No videos found for this channel", []⟩
      else
        let st := runBatches allSearchResults oracle
        let finalAnalysis := combineAnalyses st.allAnalyses allSearchResults.length
        ⟨200,
          .reportBody
            { userName := userName
              query := channelName
              totalVideosFound := allSearchResults.length
              batchesAnalyzed := st.allAnalyses.length
              batchesFailed := st.failedBatches.length
              failedBatchDetails := st.failedBatches
              searchResults := allSearchResults
              analysis := finalAnalysis },
          st.trace⟩

/-- The opening-brace character, written by code point to keep brace
characters out of literals. -/
def lbrace : Char := Char.ofNat 123

/-- The closing-brace character. -/
def rbrace : Char := Char.ofNat 125

/-- Embedding of the parse step of `analyzeBatch`:
`JSON.parse(completion.choices[0].message.content)` (src/server.js:482).
The text is a character list and `parse` abstracts `JSON.parse`
(returning `none` where `JSON.parse` throws); a failed parse throws,
which the batch catch then records.  There is no fallback of any kind. -/
def analyzeBatchParse {α : Type} (parse : List Char → Option α) (text : List Char) :
    Except String α :=
  match parse text with
  | some j => .ok j
  | none => .error "SyntaxError"

/-- JS `String.prototype.lastIndexOf` for a single character, on the
character list. -/
def lastIndexOf (cs : List Char) (c : Char) : Option Nat :=
  match cs.reverse.findIdx? (fun d => d == c) with
  | none => none
  | some k => some (cs.length - 1 - k)

/-- Embedding of `extractJSON(text)` from the alternate server
(src/test.js:33-46), over the fence-stripped text (the code-fence regex
preprocessing is not modelled; `fenced` is its output).  It first
attempts the direct parse; only on failure does it slice from the first
opening brace to the last closing brace (`fenced.slice(first, last + 1)`
with `first !== -1 && last !== -1 && last > first`) and retry, and only
if that also fails does it throw. -/
def extractJSON {α : Type} (parse : List Char → Option α) (fenced : List Char) :
    Except String α :=
  match parse fenced with
  | some j => .ok j
  | none =>
    match fenced.findIdx? (fun d => d == lbrace), lastIndexOf fenced rbrace with
    | some first, some last =>
      if first < last then
        match parse ((fenced.drop first).take (last + 1 - first)) with
        | some j => .ok j
        | none => .error "Model did not return valid JSON"
      else .error "Model did not return valid JSON"
    | some _, none => .error "Model did not return valid JSON"
    | none, _ => .error "Model did not return valid JSON"

/-! Statement-side helpers and concrete data used by the claim
statements, their witnesses and counterexamples. -/

/-- Boolean test that an entry carries the given risk, the shape of the
filters `item.risk === 'High'` etc. (src/server.js:595-597). -/
def isRisk (r : Risk) (e : RiskEntry) : Bool := e.risk == r

/-- Count of High-risk entries in a list (the quantity
`totalHighRisk` of src/server.js:595). -/
def highCount (l : List RiskEntry) : Nat :=
  (l.filter (fun e => e.risk == Risk.High)).length

/-- Count of entries whose risk is High or Medium. -/
def highMediumCount (l : List RiskEntry) : Nat :=
  (l.filter (fun e => e.risk == Risk.High || e.risk == Risk.Medium)).length

/-- The serialization keys of the real pipeline's response object
literal (src/server.js:556-565), in source order. -/
def reportResponseKeys : List String :=
  ["userName", "query", "totalVideosFound", "batchesAnalyzed", "batchesFailed",
   "failedBatchDetails", "searchResults", "analysis"]

/-- The serialization keys of the merged analysis object literal
returned by `combineAnalyses` (src/server.js:614-623), in source
order. -/
def finalAnalysisKeys : List String :=
  ["summary", "ranked_list", "top_priority", "checklist", "next_actions",
   "disclaimer", "batch_count", "failed_batches"]

/-- The serialization keys of the mock response object literal
(src/server.js:683-690), in source order. -/
def mockResponseKeys : List String :=
  ["userName", "query", "totalVideosFound", "batchesAnalyzed",
   "searchResults", "analysis"]

/-- The serialization keys of the mock analysis object literal
(src/server.js:653-681), in source order. -/
def mockAnalysisKeys : List String :=
  ["summary", "ranked_list", "top_priority", "checklist", "next_actions",
   "disclaimer", "batch_count"]

/-- A minimal concrete video used to build concrete runs. -/
def vid (k : Nat) : Video :=
  ⟨some (toString k), none, none, none, none, none, none, none⟩

/-- Eleven concrete videos: two batches (10 + 1). -/
def vids11 : List Video := (List.range 11).map vid

/-- Thirteen concrete videos: two batches (10 + 3). -/
def vids13 : List Video := (List.range 13).map vid

/-- A concrete parsed classifier response with empty lists. -/
def emptyParsed : ParsedAnalysis := ⟨"", [], [], [], [], ""⟩

/-- A concrete Medium-risk entry. -/
def medEntry : RiskEntry := ⟨"v1", "t1", "c1", "d1", Risk.Medium, []⟩

/-- A concrete parsed response whose ranked list holds one Medium-risk
entry and no High-risk entry. -/
def parsedMed : ParsedAnalysis := ⟨"s", [medEntry], ["v1"], ["chk"], ["act"], "disc"⟩

/-- A concrete oracle whose first batch fails and all others succeed. -/
def oracleFail1 : Nat → Except String ParsedAnalysis :=
  fun n => if n = 1 then .error "boom" else .ok emptyParsed

/-- A concrete oracle failing every batch. -/
def oracleAllFail : Nat → Except String ParsedAnalysis :=
  fun _ => .error "rate limit"

/-- A fully populated raw search item. -/
def rawItemFull (k : Nat) : RawItem :=
  ⟨some ⟨some (toString k)⟩,
   some ⟨some "t", some "d", some "c", some "ci", some "p", some "th", some "pt"⟩⟩

/-- A one-page script delivering three items and no continuation
token. -/
def pagesW : List (Except String RawPage) :=
  [.ok ⟨(List.range 3).map rawItemFull, none⟩]

/-- The normalized videos produced by `pagesW`. -/
def videosW : List Video :=
  (List.range 3).map (fun k =>
    ⟨some (toString k), some "t", some "d", some "c", some "ci", some "p",
      some "th", some "pt"⟩)

/-- A script whose first page succeeds (with a continuation token) and
whose second page request fails. -/
def pagesFail2 : List (Except String RawPage) :=
  [.ok ⟨(List.range 2).map rawItemFull, some "tok2"⟩, .error "quota exceeded"]

/-- A raw item whose `snippet` sub-object is absent. -/
def badItem : RawItem := ⟨some ⟨some "vid1"⟩, none⟩

/-- A page containing the snippet-less item. -/
def badPage : RawPage := ⟨[badItem], none⟩

/-- A raw item whose sub-objects are present but all of whose leaf
fields are absent. -/
def itemAllEmpty : RawItem := ⟨some ⟨none⟩, some ⟨none, none, none, none, none, none, none⟩⟩

/-- A concrete stand-in for `JSON.parse`: accepts exactly the texts that
start with an opening brace and end with a closing brace, returning the
text itself as the parsed document. -/
def toyParse (cs : List Char) : Option (List Char) :=
  if cs.head? = some lbrace ∧ cs.getLast? = some rbrace then some cs else none

/-- A raw classifier output with leading noise around a braced body:
direct parse fails, brace extraction succeeds. -/
def noisyText : List Char :=
  ['n', 'o', 'i', 's', 'e', ' ', lbrace, 'a', rbrace, ' ', 't']

/-- The braced body inside `noisyText`. -/
def bracedBody : List Char := [lbrace, 'a', rbrace]

/-! Lemmas about the batch slicing. -/

theorem chunk10Aux_length {α : Type} :
    ∀ (fuel : Nat) (l : List α), l.length ≤ fuel →
      (chunk10Aux fuel l).length = (l.length + 9) / 10 := by
  intro fuel
  induction fuel with
  | zero =>
    intro l hl
    have h0 : l.length = 0 := by omega
    simp [chunk10Aux, h0]
  | succ n ih =>
    intro l hl
    match l with
    | [] => simp [chunk10Aux]
    | x :: xs =>
      have hdrop : ((x :: xs).drop 10).length = (x :: xs).length - 10 :=
        List.length_drop 10 (x :: xs)
      have hfuel : ((x :: xs).drop 10).length ≤ n := by
        rw [hdrop]
        simp only [List.length_cons] at hl ⊢
        omega
      have hrec := ih ((x :: xs).drop 10) hfuel
      simp only [chunk10Aux, List.length_cons]
      rw [hrec, hdrop]
      simp only [List.length_cons]
      omega

theorem chunk10Aux_flatten {α : Type} :
    ∀ (fuel : Nat) (l : List α), l.length ≤ fuel →
      (chunk10Aux fuel l).flatten = l := by
  intro fuel
  induction fuel with
  | zero =>
    intro l hl
    have : l = [] := List.length_eq_zero.mp (by omega)
    subst this
    simp [chunk10Aux]
  | succ n ih =>
    intro l hl
    match l with
    | [] => simp [chunk10Aux]
    | x :: xs =>
      have hdrop : ((x :: xs).drop 10).length = (x :: xs).length - 10 :=
        List.length_drop 10 (x :: xs)
      have hfuel : ((x :: xs).drop 10).length ≤ n := by
        rw [hdrop]
        simp only [List.length_cons] at hl ⊢
        omega
      have hrec := ih ((x :: xs).drop 10) hfuel
      simp only [chunk10Aux, List.flatten_cons]
      rw [hrec]
      exact List.take_append_drop 10 (x :: xs)

/-- Number of batch slices equals the ceiling of N / 10. -/
theorem chunk10_length {α : Type} (l : List α) :
    (chunk10 l).length = (l.length + 9) / 10 :=
  chunk10Aux_length l.length l (Nat.le_refl _)

/-- Concatenating the batch slices in order reproduces the input. -/
theorem chunk10_flatten {α : Type} (l : List α) :
    (chunk10 l).flatten = l :=
  chunk10Aux_flatten l.length l (Nat.le_refl _)

/-! Lemmas about the stable descending risk sort. -/

theorem isRisk_eq_true {r : Risk} {e : RiskEntry} : isRisk r e = true ↔ e.risk = r := by
  simp [isRisk]

theorem insertByRisk_append_gt (x : RiskEntry) (A B : List RiskEntry)
    (h : ∀ y ∈ A, riskPriority x.risk < riskPriority y.risk) :
    insertByRisk x (A ++ B) = A ++ insertByRisk x B := by
  induction A with
  | nil => rfl
  | cons a A ih =>
    simp only [List.cons_append, insertByRisk, List.append_eq]
    rw [if_pos (h a (by simp))]
    rw [ih (fun y hy => h y (by simp [hy]))]

theorem insertByRisk_le_head (x : RiskEntry) (B : List RiskEntry)
    (h : ∀ y ∈ B, riskPriority y.risk ≤ riskPriority x.risk) :
    insertByRisk x B = x :: B := by
  cases B with
  | nil => rfl
  | cons b B =>
    simp only [insertByRisk]
    rw [if_neg]
    have := h b (by simp)
    omega

/-- The stable descending sort is exactly the High entries, then the
Medium entries, then the Low entries, each block keeping input order. -/
theorem sortByRiskDesc_eq_filters (l : List RiskEntry) :
    sortByRiskDesc l =
      l.filter (isRisk Risk.High) ++ l.filter (isRisk Risk.Medium) ++
        l.filter (isRisk Risk.Low) := by
  induction l with
  | nil => rfl
  | cons x xs ih =>
    have memHigh : ∀ y ∈ xs.filter (isRisk Risk.High), y.risk = Risk.High :=
      fun y hy => isRisk_eq_true.mp (List.mem_filter.mp hy).2
    have memMed : ∀ y ∈ xs.filter (isRisk Risk.Medium), y.risk = Risk.Medium :=
      fun y hy => isRisk_eq_true.mp (List.mem_filter.mp hy).2
    have memLow : ∀ y ∈ xs.filter (isRisk Risk.Low), y.risk = Risk.Low :=
      fun y hy => isRisk_eq_true.mp (List.mem_filter.mp hy).2
    simp only [sortByRiskDesc, ih]
    cases hx : x.risk with
    | High =>
      rw [insertByRisk_le_head x
        (xs.filter (isRisk Risk.High) ++ xs.filter (isRisk Risk.Medium) ++
          xs.filter (isRisk Risk.Low))
        (by
          intro y hy
          rw [hx]
          rcases List.mem_append.mp hy with hy' | hyL
          · rcases List.mem_append.mp hy' with hyH | hyM
            · rw [memHigh y hyH]
            · rw [memMed y hyM]
              simp [riskPriority]
          · rw [memLow y hyL]
            simp [riskPriority])]
      simp [List.filter_cons, isRisk, hx]
    | Medium =>
      rw [List.append_assoc]
      rw [insertByRisk_append_gt x (xs.filter (isRisk Risk.High))
        (xs.filter (isRisk Risk.Medium) ++ xs.filter (isRisk Risk.Low))
        (by
          intro y hy
          rw [hx, memHigh y hy]
          simp [riskPriority])]
      rw [insertByRisk_le_head x
        (xs.filter (isRisk Risk.Medium) ++ xs.filter (isRisk Risk.Low))
        (by
          intro y hy
          rw [hx]
          rcases List.mem_append.mp hy with hyM | hyL
          · rw [memMed y hyM]
          · rw [memLow y hyL]
            simp [riskPriority])]
      simp [List.filter_cons, isRisk, hx]
    | Low =>
      rw [insertByRisk_append_gt x
        (xs.filter (isRisk Risk.High) ++ xs.filter (isRisk Risk.Medium))
        (xs.filter (isRisk Risk.Low))
        (by
          intro y hy
          rw [hx]
          rcases List.mem_append.mp hy with hyH | hyM
          · rw [memHigh y hyH]
            simp [riskPriority]
          · rw [memMed y hyM]
            simp [riskPriority])]
      rw [insertByRisk_le_head x (xs.filter (isRisk Risk.Low))
        (by
          intro y hy
          rw [hx, memLow y hy])]
      simp [List.filter_cons, isRisk, hx]

/-- The sorted list is a permutation of its input. -/
theorem sortByRiskDesc_perm (l : List RiskEntry) : (sortByRiskDesc l).Perm l := by
  rw [sortByRiskDesc_eq_filters, List.append_assoc]
  have hMed : (l.filter (fun e => !isRisk Risk.High e)).filter (isRisk Risk.Medium) =
      l.filter (isRisk Risk.Medium) := by
    rw [List.filter_filter]
    exact List.filter_congr (fun x _ => by cases hx : x.risk <;> simp [isRisk, hx])
  have hLow : (l.filter (fun e => !isRisk Risk.High e)).filter
      (fun e => !isRisk Risk.Medium e) = l.filter (isRisk Risk.Low) := by
    rw [List.filter_filter]
    exact List.filter_congr (fun x _ => by cases hx : x.risk <;> simp [isRisk, hx])
  have h2 : (l.filter (isRisk Risk.Medium) ++ l.filter (isRisk Risk.Low)).Perm
      (l.filter (fun e => !isRisk Risk.High e)) := by
    rw [← hMed, ← hLow]
    exact List.filter_append_perm _ _
  exact ((List.Perm.append_left _ h2).trans (List.filter_append_perm _ l))

/-- Membership is unchanged by the sort. -/
theorem mem_sortByRiskDesc {e : RiskEntry} {l : List RiskEntry} :
    e ∈ sortByRiskDesc l ↔ e ∈ l :=
  (sortByRiskDesc_perm l).mem_iff

/-- The sorted list is descending in `riskPriority`. -/
theorem sortByRiskDesc_sorted (l : List RiskEntry) :
    (sortByRiskDesc l).Pairwise
      (fun a b => riskPriority b.risk ≤ riskPriority a.risk) := by
  rw [sortByRiskDesc_eq_filters]
  have blk : ∀ (r : Risk) (m : List RiskEntry),
      (∀ y ∈ m, y.risk = r) →
        m.Pairwise (fun a b => riskPriority b.risk ≤ riskPriority a.risk) :=
    fun r m hm => List.pairwise_of_forall_mem_list
      (fun a ha b hb => by rw [hm a ha, hm b hb])
  have memF : ∀ (r : Risk) (y : RiskEntry), y ∈ l.filter (isRisk r) → y.risk = r :=
    fun r y hy => isRisk_eq_true.mp (List.mem_filter.mp hy).2
  rw [List.append_assoc, List.pairwise_append]
  refine ⟨blk Risk.High _ (memF Risk.High), ?_, ?_⟩
  · rw [List.pairwise_append]
    refine ⟨blk Risk.Medium _ (memF Risk.Medium), blk Risk.Low _ (memF Risk.Low), ?_⟩
    intro a ha b hb
    rw [memF Risk.Medium a ha, memF Risk.Low b hb]
    simp [riskPriority]
  · intro a ha b hb
    rw [memF Risk.High a ha]
    rcases List.mem_append.mp hb with hbM | hbL
    · rw [memF Risk.Medium b hbM]
      simp [riskPriority]
    · rw [memF Risk.Low b hbL]
      simp [riskPriority]

/-- Stability: for each fixed risk level, the sort preserves the exact
subsequence of entries carrying that level. -/
theorem sortByRiskDesc_stable (l : List RiskEntry) (r : Risk) :
    (sortByRiskDesc l).filter (isRisk r) = l.filter (isRisk r) := by
  rw [sortByRiskDesc_eq_filters]
  rw [List.filter_append, List.filter_append, List.filter_filter,
    List.filter_filter, List.filter_filter]
  cases r with
  | High =>
    rw [List.filter_congr (fun x _ => show (isRisk Risk.High x && isRisk Risk.High x) =
        isRisk Risk.High x by cases hx : x.risk <;> simp [isRisk, hx])]
    rw [List.filter_congr (l := l) (fun x _ => show (isRisk Risk.High x && isRisk Risk.Medium x) =
        (fun _ => false) x by cases hx : x.risk <;> simp [isRisk, hx])]
    rw [List.filter_congr (l := l) (fun x _ => show (isRisk Risk.High x && isRisk Risk.Low x) =
        (fun _ => false) x by cases hx : x.risk <;> simp [isRisk, hx])]
    simp
  | Medium =>
    rw [List.filter_congr (fun x _ => show (isRisk Risk.Medium x && isRisk Risk.High x) =
        (fun _ => false) x by cases hx : x.risk <;> simp [isRisk, hx])]
    rw [List.filter_congr (l := l) (fun x _ => show (isRisk Risk.Medium x && isRisk Risk.Medium x) =
        isRisk Risk.Medium x by cases hx : x.risk <;> simp [isRisk, hx])]
    rw [List.filter_congr (l := l) (fun x _ => show (isRisk Risk.Medium x && isRisk Risk.Low x) =
        (fun _ => false) x by cases hx : x.risk <;> simp [isRisk, hx])]
    simp
  | Low =>
    rw [List.filter_congr (fun x _ => show (isRisk Risk.Low x && isRisk Risk.High x) =
        (fun _ => false) x by cases hx : x.risk <;> simp [isRisk, hx])]
    rw [List.filter_congr (l := l) (fun x _ => show (isRisk Risk.Low x && isRisk Risk.Medium x) =
        (fun _ => false) x by cases hx : x.risk <;> simp [isRisk, hx])]
    rw [List.filter_congr (l := l) (fun x _ => show (isRisk Risk.Low x && isRisk Risk.Low x) =
        isRisk Risk.Low x by cases hx : x.risk <;> simp [isRisk, hx])]
    simp

/-! Lemmas about first-occurrence deduplication. -/

theorem dedupFirstAux_sublist :
    ∀ (fuel : Nat) (l : List String), (dedupFirstAux fuel l).Sublist l := by
  intro fuel
  induction fuel with
  | zero =>
    intro l
    simp only [dedupFirstAux]
    exact List.nil_sublist l
  | succ n ih =>
    intro l
    match l with
    | [] => simp [dedupFirstAux]
    | x :: xs =>
      simp only [dedupFirstAux]
      exact List.cons_sublist_cons.mpr
        ((ih _).trans (List.filter_sublist xs))

theorem dedupFirstAux_nodup :
    ∀ (fuel : Nat) (l : List String), (dedupFirstAux fuel l).Nodup := by
  intro fuel
  induction fuel with
  | zero =>
    intro l
    simp [dedupFirstAux]
  | succ n ih =>
    intro l
    match l with
    | [] => simp [dedupFirstAux]
    | x :: xs =>
      simp only [dedupFirstAux]
      rw [List.nodup_cons]
      refine ⟨?_, ih _⟩
      intro hx
      have hxf : x ∈ xs.filter (fun y => y != x) :=
        List.Sublist.mem hx (dedupFirstAux_sublist n _)
      have := (List.mem_filter.mp hxf).2
      simp at this

/-- Monotonicity of first-occurrence indices under `filter`: two
surviving elements keep their relative first-occurrence order. -/
theorem indexOf_filter_lt (p : String → Bool) :
    ∀ (xs : List String) (a b : String), a ∈ xs.filter p → b ∈ xs.filter p →
      List.indexOf a (xs.filter p) < List.indexOf b (xs.filter p) →
      List.indexOf a xs < List.indexOf b xs := by
  intro xs
  induction xs with
  | nil =>
    intro a b ha
    simp at ha
  | cons h rest ih =>
    intro a b ha hb hlt
    by_cases hp : p h = true
    · rw [List.filter_cons_of_pos hp] at ha hb hlt
      by_cases hah : a = h
      · subst hah
        have hba : b ≠ a := by
          intro hba
          subst hba
          omega
        rw [List.indexOf_cons_self] at hlt ⊢
        rw [List.indexOf_cons_ne _ (fun hh => hba hh.symm)]
        omega
      · have hbh : b ≠ h := by
          intro hbh
          subst hbh
          rw [List.indexOf_cons_self] at hlt
          omega
        rw [List.indexOf_cons_ne _ (fun hh => hah hh.symm)] at hlt
        rw [List.indexOf_cons_ne _ (fun hh => hbh hh.symm)] at hlt
        rw [List.indexOf_cons_ne _ (fun hh => hah hh.symm),
          List.indexOf_cons_ne _ (fun hh => hbh hh.symm)]
        have ha' : a ∈ rest.filter p := by
          rcases List.mem_cons.mp ha with h1 | h1
          · exact absurd h1 hah
          · exact h1
        have hb' : b ∈ rest.filter p := by
          rcases List.mem_cons.mp hb with h1 | h1
          · exact absurd h1 hbh
          · exact h1
        have := ih a b ha' hb' (by omega)
        omega
    · rw [List.filter_cons_of_neg hp] at ha hb hlt
      have hah : a ≠ h := by
        intro hah
        subst hah
        exact hp (List.mem_filter.mp ha).2
      have hbh : b ≠ h := by
        intro hbh
        subst hbh
        exact hp (List.mem_filter.mp hb).2
      rw [List.indexOf_cons_ne _ (fun hh => hah hh.symm),
        List.indexOf_cons_ne _ (fun hh => hbh hh.symm)]
      have := ih a b ha hb hlt
      omega

/-- Elements of the deduplicated list appear in strictly increasing
first-occurrence order of the input list. -/
theorem dedupFirstAux_pairwise_indexOf :
    ∀ (fuel : Nat) (l : List String),
      (dedupFirstAux fuel l).Pairwise
        (fun a b => List.indexOf a l < List.indexOf b l) := by
  intro fuel
  induction fuel with
  | zero =>
    intro l
    simp [dedupFirstAux]
  | succ n ih =>
    intro l
    match l with
    | [] => simp [dedupFirstAux]
    | x :: xs =>
      simp only [dedupFirstAux]
      rw [List.pairwise_cons]
      constructor
      · intro b hb
        have hbf : b ∈ xs.filter (fun y => y != x) :=
          List.Sublist.mem hb (dedupFirstAux_sublist n _)
        have hbne : b ≠ x := by
          have := (List.mem_filter.mp hbf).2
          exact bne_iff_ne.mp this
        rw [List.indexOf_cons_self, List.indexOf_cons_ne _ (fun hh => hbne hh.symm)]
        omega
      · refine (ih (xs.filter (fun y => y != x))).imp_of_mem ?_
        intro a b ha hb hR
        have haf : a ∈ xs.filter (fun y => y != x) :=
          List.Sublist.mem ha (dedupFirstAux_sublist n _)
        have hbf : b ∈ xs.filter (fun y => y != x) :=
          List.Sublist.mem hb (dedupFirstAux_sublist n _)
        have hane : a ≠ x := bne_iff_ne.mp (List.mem_filter.mp haf).2
        have hbne : b ≠ x := bne_iff_ne.mp (List.mem_filter.mp hbf).2
        have h1 : List.indexOf a xs < List.indexOf b xs :=
          indexOf_filter_lt _ xs a b haf hbf hR
        rw [List.indexOf_cons_ne _ (fun hh => hane hh.symm),
          List.indexOf_cons_ne _ (fun hh => hbne hh.symm)]
        omega

theorem dedupFirst_nodup (l : List String) : (dedupFirst l).Nodup :=
  dedupFirstAux_nodup l.length l

theorem dedupFirst_sublist (l : List String) : (dedupFirst l).Sublist l :=
  dedupFirstAux_sublist l.length l

theorem dedupFirst_pairwise_indexOf (l : List String) :
    (dedupFirst l).Pairwise (fun a b => List.indexOf a l < List.indexOf b l) :=
  dedupFirstAux_pairwise_indexOf l.length l

/-! Invariants of the batch loop. -/

theorem batchLoopAux_analyses_length (oracle : Nat → Except String ParsedAnalysis)
    (t : Nat) :
    ∀ (fuel : Nat) (l : List Video) (i : Nat), l.length ≤ fuel →
      (batchLoopAux oracle t fuel l i).allAnalyses.length = (l.length + 9) / 10 := by
  intro fuel
  induction fuel with
  | zero =>
    intro l i hl
    have h0 : l.length = 0 := by omega
    simp [batchLoopAux, h0]
  | succ n ih =>
    intro l i hl
    match l with
    | [] => simp [batchLoopAux]
    | x :: xs =>
      have hdrop : ((x :: xs).drop 10).length = (x :: xs).length - 10 :=
        List.length_drop 10 (x :: xs)
      have hfuel : ((x :: xs).drop 10).length ≤ n := by
        rw [hdrop]
        simp only [List.length_cons] at hl ⊢
        omega
      have hrec := ih ((x :: xs).drop 10) (i + 10) hfuel
      rw [hdrop] at hrec
      simp only [List.length_cons] at hrec ⊢
      cases hok : oracle (batchNumber i) with
      | ok a =>
        simp only [batchLoopAux, hok, List.length_cons]
        rw [hrec]
        omega
      | error msg =>
        simp only [batchLoopAux, hok, List.length_cons]
        rw [hrec]
        omega

theorem batchLoopAux_fail_counts (oracle : Nat → Except String ParsedAnalysis)
    (t : Nat) :
    ∀ (fuel : Nat) (l : List Video) (i : Nat), l.length ≤ fuel →
      ((batchLoopAux oracle t fuel l i).allAnalyses.filter
          (fun a => a.batch_failed)).length =
        failCountFrom oracle (i / 10 + 1) ((l.length + 9) / 10) ∧
      (batchLoopAux oracle t fuel l i).failedBatches.length =
        failCountFrom oracle (i / 10 + 1) ((l.length + 9) / 10) := by
  intro fuel
  induction fuel with
  | zero =>
    intro l i hl
    have h0 : l.length = 0 := by omega
    simp [batchLoopAux, h0, failCountFrom]
  | succ n ih =>
    intro l i hl
    match l with
    | [] => simp [batchLoopAux, failCountFrom]
    | x :: xs =>
      have hdrop : ((x :: xs).drop 10).length = (x :: xs).length - 10 :=
        List.length_drop 10 (x :: xs)
      have hfuel : ((x :: xs).drop 10).length ≤ n := by
        rw [hdrop]
        simp only [List.length_cons] at hl ⊢
        omega
      have hrec := ih ((x :: xs).drop 10) (i + 10) hfuel
      rw [hdrop] at hrec
      have hdiv : (i + 10) / 10 = i / 10 + 1 := Nat.add_div_right i (by omega)
      rw [hdiv] at hrec
      have hsplit : ((x :: xs).length + 9) / 10 =
          (((x :: xs).length - 10) + 9) / 10 + 1 := by
        simp only [List.length_cons]
        omega
      rw [hsplit, failCountFrom]
      cases hok : oracle (i / 10 + 1) with
      | ok a =>
        simp only [List.drop_succ_cons, List.length_cons] at hrec
        simp only [batchLoopAux, batchNumber, hok, List.drop_succ_cons,
          List.filter_cons, mkSuccess, oracleOk, List.length_cons]
        simp only [Bool.false_eq_true, if_false, if_pos, List.length_cons,
          Nat.zero_add]
        exact ⟨hrec.1, hrec.2⟩
      | error msg =>
        simp only [List.drop_succ_cons, List.length_cons] at hrec
        simp only [batchLoopAux, batchNumber, hok, List.drop_succ_cons,
          List.filter_cons, failedPlaceholder, oracleOk, List.length_cons]
        simp only [if_pos, if_neg, Bool.false_eq_true, if_false, List.length_cons,
          Nat.zero_add]
        refine ⟨?_, ?_⟩
        · have h1 := hrec.1
          omega
        · have h2 := hrec.2
          omega

theorem batchLoopAux_ranked_mem (oracle : Nat → Except String ParsedAnalysis)
    (t : Nat) :
    ∀ (fuel : Nat) (l : List Video) (i : Nat),
      ∀ b ∈ (batchLoopAux oracle t fuel l i).allAnalyses,
        ∀ e ∈ b.ranked_list, ∃ n a, oracle n = Except.ok a ∧ e ∈ a.ranked_list := by
  intro fuel
  induction fuel with
  | zero =>
    intro l i b hb
    simp [batchLoopAux] at hb
  | succ n ih =>
    intro l i b hb
    match l with
    | [] =>
      simp [batchLoopAux] at hb
    | x :: xs =>
      cases hok : oracle (batchNumber i) with
      | ok a =>
        simp only [batchLoopAux, hok, List.mem_cons] at hb
        rcases hb with hb | hb
        · intro e he
          subst hb
          exact ⟨batchNumber i, a, hok, he⟩
        · exact ih ((x :: xs).drop 10) (i + 10) b hb
      | error msg =>
        simp only [batchLoopAux, hok, List.mem_cons] at hb
        rcases hb with hb | hb
        · intro e he
          subst hb
          simp [failedPlaceholder] at he
        · exact ih ((x :: xs).drop 10) (i + 10) b hb

theorem batchLoopAux_trace (oracle : Nat → Except String ParsedAnalysis) (t : Nat) :
    ∀ (fuel : Nat) (l : List Video) (k : Nat), l.length ≤ fuel →
      (batchLoopAux oracle t fuel l (10 * k)).trace =
        ((List.range ((l.length + 9) / 10)).map (fun j => j + (k + 1))).flatMap
          (fun n => Event.dispatch n ::
            (if 10 * n < t ∧ oracleOk (oracle n) = true then [Event.wait 1000]
             else [])) := by
  intro fuel
  induction fuel with
  | zero =>
    intro l k hl
    have h0 : l.length = 0 := by omega
    simp [batchLoopAux, h0]
  | succ n ih =>
    intro l k hl
    match l with
    | [] => simp [batchLoopAux]
    | x :: xs =>
      have hdrop : ((x :: xs).drop 10).length = (x :: xs).length - 10 :=
        List.length_drop 10 (x :: xs)
      have hfuel : ((x :: xs).drop 10).length ≤ n := by
        rw [hdrop]
        simp only [List.length_cons] at hl ⊢
        omega
      have hi10 : 10 * k + 10 = 10 * (k + 1) := by ring
      have hrec := ih ((x :: xs).drop 10) (k + 1) hfuel
      rw [hdrop] at hrec
      have hbn : batchNumber (10 * k) = k + 1 := by
        simp [batchNumber, Nat.mul_div_cancel_left]
      have hsplit : ((x :: xs).length + 9) / 10 =
          (((x :: xs).length - 10) + 9) / 10 + 1 := by
        simp only [List.length_cons]
        omega
      rw [hsplit, List.range_succ_eq_map]
      have hmap : ((0 :: List.map Nat.succ
            (List.range ((((x :: xs).length - 10) + 9) / 10))).map
          (fun j => j + (k + 1))) =
          (k + 1) :: (List.range ((((x :: xs).length - 10) + 9) / 10)).map
            (fun j => j + (k + 2)) := by
        simp only [List.map_cons, List.map_map]
        congr 1
        · omega
        · exact List.map_congr_left
            (fun a _ => by simp [Function.comp, Nat.succ_eq_add_one]; omega)
      rw [hmap, List.flatMap_cons]
      cases hok : oracle (k + 1) with
      | ok a =>
        simp only [batchLoopAux, hbn, hok]
        rw [hi10]
        rw [hrec]
        by_cases hcond : 10 * (k + 1) < t
        · rw [if_pos hcond, if_pos ⟨hcond, rfl⟩]
          simp
        · rw [if_neg hcond, if_neg (fun hc => hcond hc.1)]
          simp
      | error msg =>
        simp only [batchLoopAux, hbn, hok]
        rw [hi10]
        rw [hrec]
        rw [if_neg (fun hc => Bool.false_ne_true hc.2)]
        simp

/-! Top-level corollaries of the loop invariants. -/

theorem runBatches_analyses_length (videos : List Video)
    (oracle : Nat → Except String ParsedAnalysis) :
    (runBatches videos oracle).allAnalyses.length = (videos.length + 9) / 10 :=
  batchLoopAux_analyses_length oracle videos.length videos.length videos 0
    (Nat.le_refl _)

theorem runBatches_fail_counts (videos : List Video)
    (oracle : Nat → Except String ParsedAnalysis) :
    ((runBatches videos oracle).allAnalyses.filter
        (fun a => a.batch_failed)).length =
      failCountFrom oracle 1 ((videos.length + 9) / 10) ∧
    (runBatches videos oracle).failedBatches.length =
      failCountFrom oracle 1 ((videos.length + 9) / 10) := by
  have h := batchLoopAux_fail_counts oracle videos.length videos.length videos 0
    (Nat.le_refl _)
  simpa using h

theorem runBatches_ranked_mem (videos : List Video)
    (oracle : Nat → Except String ParsedAnalysis) :
    ∀ b ∈ (runBatches videos oracle).allAnalyses,
      ∀ e ∈ b.ranked_list, ∃ n a, oracle n = Except.ok a ∧ e ∈ a.ranked_list :=
  batchLoopAux_ranked_mem oracle videos.length videos.length videos 0

theorem runBatches_trace (videos : List Video)
    (oracle : Nat → Except String ParsedAnalysis) :
    (runBatches videos oracle).trace =
      ((List.range ((videos.length + 9) / 10)).map (fun j => j + 1)).flatMap
        (fun n => Event.dispatch n ::
          (if 10 * n < videos.length ∧ oracleOk (oracle n) = true
           then [Event.wait 1000] else [])) := by
  have h := batchLoopAux_trace oracle videos.length videos.length videos 0
    (Nat.le_refl _)
  simpa using h

/-- Unfolding of the route on a successful, non-empty search with both
keys present. -/
theorem analyzeRoute_ok (u c : String) (now : Nat)
    (pages : List (Except String RawPage))
    (oracle : Nat → Except String ParsedAnalysis) (videos : List Video)
    (hu : u ≠ "") (hc : c ≠ "")
    (hfetch : fetchPages pages [] = Except.ok videos) (hN : 0 < videos.length) :
    analyzeRoute u c true true now pages oracle =
      ⟨200,
        RouteBody.reportBody
          { userName := u
            query := c
            totalVideosFound := videos.length
            batchesAnalyzed := (runBatches videos oracle).allAnalyses.length
            batchesFailed := (runBatches videos oracle).failedBatches.length
            failedBatchDetails := (runBatches videos oracle).failedBatches
            searchResults := videos
            analysis := combineAnalyses (runBatches videos oracle).allAnalyses
              videos.length },
        (runBatches videos oracle).trace⟩ := by
  have h1 : ¬(u = "" ∨ c = "") := by
    rintro (h | h)
    · exact hu h
    · exact hc h
  have h0 : ¬videos.length = 0 := by omega
  simp [analyzeRoute, hfetch, h1, h0]

/-- Unfolding of the route when the pagination stage throws. -/
theorem analyzeRoute_fetch_error (u c : String) (now : Nat)
    (pages : List (Except String RawPage))
    (oracle : Nat → Except String ParsedAnalysis) (msg : String)
    (hu : u ≠ "") (hc : c ≠ "")
    (hfail : fetchPages pages [] = Except.error msg) :
    analyzeRoute u c true true now pages oracle =
      ⟨500, RouteBody.errorBody ("YouTube API error: " ++ msg), []⟩ := by
  have h1 : ¬(u = "" ∨ c = "") := by
    rintro (h | h)
    · exact hu h
    · exact hc h
  simp [analyzeRoute, hfail, h1]

/-! The claims. -/

/-- C2: for every fetched video sequence of length N > 0 and batch size
B = 10, the orchestrator produces exactly ceil(N/B) = (N + 9) / 10
batches, the k-th slice (0-based) is given the 1-based ordinal k + 1 by
the loop's `Math.floor(i / batchSize) + 1` at start index i = 10 k, and
concatenating the batch slices in order yields the original sequence,
each element exactly once. -/
theorem batch_partition (l : List Video) (h : 0 < l.length) :
    (chunk10 l).length = (l.length + 9) / 10 ∧
    (chunk10 l).flatten = l ∧
    (∀ k : Nat, batchNumber (10 * k) = k + 1) := by
  refine ⟨chunk10_length l, chunk10_flatten l, ?_⟩
  intro k
  simp [batchNumber, Nat.mul_div_cancel_left]

theorem batch_partition_witness :
    0 < vids13.length ∧
      ((chunk10 vids13).length = (vids13.length + 9) / 10 ∧
        (chunk10 vids13).flatten = vids13 ∧
        (∀ k : Nat, batchNumber (10 * k) = k + 1)) :=
  ⟨by decide, batch_partition vids13 (by decide)⟩

/-- C3: the merged ranked_list is the concatenation of the batches'
ranked_lists (a permutation of it, arranged in descending
High > Medium > Low severity), and the sort is stable: for every fixed
risk level the subsequence of entries with that level is exactly the one
of the concatenated input, so equal-risk entries keep their relative
order. -/
theorem merged_ranked_list_sorted_stable (analyses : List BatchAnalysis)
    (tv : Nat) :
    ((combineAnalyses analyses tv).ranked_list).Perm
        ((analyses.map (fun a => a.ranked_list)).flatten) ∧
    ((combineAnalyses analyses tv).ranked_list).Pairwise
        (fun a b => riskPriority b.risk ≤ riskPriority a.risk) ∧
    ∀ r : Risk,
      ((combineAnalyses analyses tv).ranked_list).filter (isRisk r) =
        ((analyses.map (fun a => a.ranked_list)).flatten).filter (isRisk r) := by
  have hr : (combineAnalyses analyses tv).ranked_list =
      sortByRiskDesc ((analyses.map (fun a => a.ranked_list)).flatten) := rfl
  rw [hr]
  exact ⟨sortByRiskDesc_perm _, sortByRiskDesc_sorted _,
    fun r => sortByRiskDesc_stable _ r⟩

/-- C4: the merged top_priority has no repeated videoId, keeps the
strict first-occurrence order of the batch-order concatenation of the
batches' top_priority lists, draws all its elements from that
concatenation, and has length at most 10. -/
theorem merged_top_priority_dedup (analyses : List BatchAnalysis) (tv : Nat) :
    ((combineAnalyses analyses tv).top_priority).Nodup ∧
    ((combineAnalyses analyses tv).top_priority).length ≤ 10 ∧
    ((combineAnalyses analyses tv).top_priority).Pairwise
      (fun a b =>
        List.indexOf a ((analyses.map (fun x => x.top_priority)).flatten) <
          List.indexOf b ((analyses.map (fun x => x.top_priority)).flatten)) ∧
    ∀ x ∈ (combineAnalyses analyses tv).top_priority,
      x ∈ (analyses.map (fun x => x.top_priority)).flatten := by
  have htp : (combineAnalyses analyses tv).top_priority =
      (dedupFirst ((analyses.map (fun x => x.top_priority)).flatten)).take 10 := rfl
  rw [htp]
  refine ⟨?_, ?_, ?_, ?_⟩
  · exact (List.take_sublist 10 _).nodup (dedupFirst_nodup _)
  · rw [List.length_take]
    exact min_le_left _ _
  · exact List.Pairwise.sublist (List.take_sublist 10 _)
      (dedupFirst_pairwise_indexOf _)
  · intro x hx
    exact List.Sublist.mem hx
      ((List.take_sublist 10 _).trans (dedupFirst_sublist _))

theorem highMediumCount_eq (l : List RiskEntry) :
    highMediumCount l = (l.filter (fun e => e.risk == Risk.High)).length +
      (l.filter (fun e => e.risk == Risk.Medium)).length := by
  induction l with
  | nil => rfl
  | cons x xs ih =>
    simp only [highMediumCount] at ih ⊢
    cases hx : x.risk <;>
      simp [List.filter_cons, hx, ih] <;> omega

/-- C5, counterexample: with one successful batch holding a single
Medium entry, the merged list's High+Medium count is 1 (positive), yet
the summary carries the negative qualifier sentence, because the code
keys the qualifier on `totalHighRisk > 0` alone (src/server.js:600-604),
not on the High+Medium count as the claim states. -/
theorem summary_qualifier_counterexample :
    highMediumCount ((combineAnalyses [mkSuccess parsedMed] 1).ranked_list) = 1 ∧
    (combineAnalyses [mkSuccess parsedMed] 1).summary =
      "We found 1 Movies with Possible infringement. No immediate high-risk concerns detected." := by
  constructor
  · rfl
  · rfl

/-- C5 amended: the merged summary states the count of High or Medium
entries across the merged ranked_list, but its fixed qualifier sentence
is chosen by whether the High count alone is greater than zero. -/
theorem summary_counts_and_high_qualifier (analyses : List BatchAnalysis)
    (tv : Nat) :
    (combineAnalyses analyses tv).summary =
      "We found " ++
        toString (highMediumCount ((combineAnalyses analyses tv).ranked_list)) ++
        " Movies with Possible infringement. " ++
        (if 0 < highCount ((combineAnalyses analyses tv).ranked_list) then
          "Immediate attention recommended for high-risk content."
         else "No immediate high-risk concerns detected.") := by
  have hr : (combineAnalyses analyses tv).ranked_list =
      sortByRiskDesc ((analyses.map (fun a => a.ranked_list)).flatten) := rfl
  have hH := congrArg List.length
    (sortByRiskDesc_stable ((analyses.map (fun a => a.ranked_list)).flatten)
      Risk.High)
  have hM := congrArg List.length
    (sortByRiskDesc_stable ((analyses.map (fun a => a.ranked_list)).flatten)
      Risk.Medium)
  have hH' : ((sortByRiskDesc ((analyses.map (fun a => a.ranked_list)).flatten)).filter
        (fun e => e.risk == Risk.High)).length =
      (((analyses.map (fun a => a.ranked_list)).flatten).filter
        (fun e => e.risk == Risk.High)).length := hH
  have hM' : ((sortByRiskDesc ((analyses.map (fun a => a.ranked_list)).flatten)).filter
        (fun e => e.risk == Risk.Medium)).length =
      (((analyses.map (fun a => a.ranked_list)).flatten).filter
        (fun e => e.risk == Risk.Medium)).length := hM
  have h1 : highCount ((combineAnalyses analyses tv).ranked_list) =
      (((analyses.map (fun a => a.ranked_list)).flatten).filter
        (fun e => e.risk == Risk.High)).length := by
    rw [highCount, hr]
    exact hH'
  have h2 : highMediumCount ((combineAnalyses analyses tv).ranked_list) =
      (((analyses.map (fun a => a.ranked_list)).flatten).filter
          (fun e => e.risk == Risk.High)).length +
        (((analyses.map (fun a => a.ranked_list)).flatten).filter
          (fun e => e.risk == Risk.Medium)).length := by
    rw [hr, highMediumCount_eq, hH', hM']
  rw [h1, h2]
  rfl

/-- C1: whenever the search stage succeeds with N > 0 videos and k of
the ceil(N/10) batches fail, the request still responds 200, the merged
report's batch_count is the total number of batches, its failed_batches
(and the response's batchesFailed) equal k, and every entry of the
merged ranked_list was contributed by a successfully classified batch
(the failure placeholders contribute none). -/
theorem analyze_tolerates_batch_failures (u c : String) (now : Nat)
    (pages : List (Except String RawPage))
    (oracle : Nat → Except String ParsedAnalysis) (videos : List Video)
    (hu : u ≠ "") (hc : c ≠ "")
    (hfetch : fetchPages pages [] = Except.ok videos) (hN : 0 < videos.length) :
    (analyzeRoute u c true true now pages oracle).status = 200 ∧
    ∃ rep : Report,
      (analyzeRoute u c true true now pages oracle).body =
        RouteBody.reportBody rep ∧
      rep.analysis.batch_count = (videos.length + 9) / 10 ∧
      rep.analysis.failed_batches =
        failCountFrom oracle 1 ((videos.length + 9) / 10) ∧
      rep.batchesFailed = failCountFrom oracle 1 ((videos.length + 9) / 10) ∧
      ∀ e ∈ rep.analysis.ranked_list,
        ∃ n a, oracle n = Except.ok a ∧ e ∈ a.ranked_list := by
  rw [analyzeRoute_ok u c now pages oracle videos hu hc hfetch hN]
  refine ⟨rfl, _, rfl, ?_, ?_, ?_, ?_⟩
  · show (combineAnalyses (runBatches videos oracle).allAnalyses
        videos.length).batch_count = _
    have hb : (combineAnalyses (runBatches videos oracle).allAnalyses
        videos.length).batch_count =
        (runBatches videos oracle).allAnalyses.length := rfl
    rw [hb, runBatches_analyses_length]
  · show (combineAnalyses (runBatches videos oracle).allAnalyses
        videos.length).failed_batches = _
    have hf : (combineAnalyses (runBatches videos oracle).allAnalyses
        videos.length).failed_batches =
        ((runBatches videos oracle).allAnalyses.filter
          (fun a => a.batch_failed)).length := rfl
    rw [hf]
    exact (runBatches_fail_counts videos oracle).1
  · exact (runBatches_fail_counts videos oracle).2
  · intro e he
    have hr : (combineAnalyses (runBatches videos oracle).allAnalyses
        videos.length).ranked_list =
        sortByRiskDesc (((runBatches videos oracle).allAnalyses.map
          (fun a => a.ranked_list)).flatten) := rfl
    rw [hr] at he
    have he2 := mem_sortByRiskDesc.mp he
    rcases List.mem_flatten.mp he2 with ⟨rl, hrl, herl⟩
    rcases List.mem_map.mp hrl with ⟨b, hb, hbe⟩
    exact runBatches_ranked_mem videos oracle b hb e (hbe ▸ herl)

theorem analyze_tolerates_batch_failures_witness :
    ("Artist" : String) ≠ "" ∧ ("Chan" : String) ≠ "" ∧
    fetchPages pagesW [] = Except.ok videosW ∧ 0 < videosW.length ∧
    ((analyzeRoute "Artist" "Chan" true true 0 pagesW oracleAllFail).status = 200 ∧
      ∃ rep : Report,
        (analyzeRoute "Artist" "Chan" true true 0 pagesW oracleAllFail).body =
          RouteBody.reportBody rep ∧
        rep.analysis.batch_count = (videosW.length + 9) / 10 ∧
        rep.analysis.failed_batches =
          failCountFrom oracleAllFail 1 ((videosW.length + 9) / 10) ∧
        rep.batchesFailed = failCountFrom oracleAllFail 1 ((videosW.length + 9) / 10) ∧
        ∀ e ∈ rep.analysis.ranked_list,
          ∃ n a, oracleAllFail n = Except.ok a ∧ e ∈ a.ranked_list) :=
  ⟨by decide, by decide, rfl, by decide,
    analyze_tolerates_batch_failures "Artist" "Chan" 0 pagesW oracleAllFail videosW
      (by decide) (by decide) rfl (by decide)⟩

/-- C8, counterexample: with 11 videos (two batches) and a first batch
that fails, the loop dispatches batch 2 immediately after batch 1 with
no pacing wait anywhere in the trace, because the 1000 ms sleep sits in
the try branch only (src/server.js:505-508) and the catch branch
continues without it.  The claim requires a wait between every pair of
consecutive dispatches including after a failed batch, so it fails
here. -/
theorem pacing_skipped_after_failed_batch :
    (runBatches vids11 oracleFail1).trace =
      [Event.dispatch 1, Event.dispatch 2] ∧
    Event.wait 1000 ∉ (runBatches vids11 oracleFail1).trace := by
  constructor
  · rfl
  · decide

/-- C8 amended: the trace of the batch loop is, per 1-based ordinal n,
a dispatch followed by a fixed 1000 ms pacing wait exactly when that
batch succeeded and was not the last batch; after a failed batch the
next dispatch follows with no wait, and no wait follows the last
batch. -/
theorem pacing_between_batches (videos : List Video)
    (oracle : Nat → Except String ParsedAnalysis) (h : videos ≠ []) :
    (runBatches videos oracle).trace =
      ((List.range ((videos.length + 9) / 10)).map (fun j => j + 1)).flatMap
        (fun n => Event.dispatch n ::
          (if n < (videos.length + 9) / 10 ∧ oracleOk (oracle n) = true
           then [Event.wait 1000] else [])) := by
  rw [runBatches_trace]
  apply List.flatMap_congr
  intro n hn
  rcases List.mem_map.mp hn with ⟨j, hj, hjn⟩
  have hjlt : j < (videos.length + 9) / 10 := List.mem_range.mp hj
  have hpos : 0 < videos.length := List.length_pos.mpr h
  have hiff : (10 * n < videos.length) ↔ (n < (videos.length + 9) / 10) := by
    omega
  by_cases hok : oracleOk (oracle n) = true
  · by_cases hlt : 10 * n < videos.length
    · rw [if_pos ⟨hlt, hok⟩, if_pos ⟨hiff.mp hlt, hok⟩]
    · rw [if_neg (fun hcon => hlt hcon.1),
        if_neg (fun hcon => hlt (hiff.mpr hcon.1))]
  · rw [if_neg (fun hcon => hok hcon.2), if_neg (fun hcon => hok hcon.2)]

theorem pacing_between_batches_witness :
    vids13 ≠ [] ∧
    (runBatches vids13 oracleFail1).trace =
      ((List.range ((vids13.length + 9) / 10)).map (fun j => j + 1)).flatMap
        (fun n => Event.dispatch n ::
          (if n < (vids13.length + 9) / 10 ∧ oracleOk (oracleFail1 n) = true
           then [Event.wait 1000] else [])) :=
  ⟨by decide, pacing_between_batches vids13 oracleFail1 (by decide)⟩

/-- C6, counterexample: on a raw text whose direct parse fails even
though brace extraction would succeed (as `extractJSON` of the alternate
server shows), the batch pipeline's parse step
(src/server.js:482, a bare `JSON.parse`) raises a classifier-output
error without ever attempting the bracket-extraction fallback, so the
claim that the batch classifier's parser falls back before giving up
fails. -/
theorem batch_parse_has_no_fallback :
    oracleOk (analyzeBatchParse toyParse noisyText) = false ∧
    extractJSON toyParse noisyText = Except.ok bracedBody := by
  constructor
  · rfl
  · rfl

/-- C6 amended: the two-stage parse — direct parse first, outermost
bracket extraction only on direct failure, error only if both fail — is
implemented by `extractJSON` of the alternate non-batched server
(src/test.js:33-46); the batch pipeline of src/server.js parses with a
single direct `JSON.parse` and raises a batch error on failure without
any fallback.  Stated for any abstract parse function: a direct success
is returned unchanged by both parsers; on direct failure the batch
parser always errors, while `extractJSON` is decided by parsing the
slice from the first opening brace to the last closing brace. -/
theorem parser_two_stage {α : Type} (parse : List Char → Option α)
    (text : List Char) :
    (∀ j, parse text = some j →
      extractJSON parse text = Except.ok j ∧
        analyzeBatchParse parse text = Except.ok j) ∧
    (parse text = none →
      oracleOk (analyzeBatchParse parse text) = false ∧
      ∀ first last, text.findIdx? (fun d => d == lbrace) = some first →
        lastIndexOf text rbrace = some last → first < last →
        extractJSON parse text =
          (match parse ((text.drop first).take (last + 1 - first)) with
           | some j => Except.ok j
           | none => Except.error "Model did not return valid JSON")) := by
  constructor
  · intro j hj
    constructor
    · rw [extractJSON, hj]
    · rw [analyzeBatchParse, hj]
  · intro hnone
    constructor
    · rw [analyzeBatchParse, hnone]
      rfl
    · intro first last hfirst hlast hlt
      rw [extractJSON, hnone, hfirst, hlast]
      exact if_pos hlt

theorem parser_two_stage_witness :
    (toyParse bracedBody = some bracedBody ∧
      extractJSON toyParse bracedBody = Except.ok bracedBody) ∧
    (toyParse noisyText = none ∧
      oracleOk (analyzeBatchParse toyParse noisyText) = false) :=
  ⟨⟨by decide, ((parser_two_stage toyParse bracedBody).1 bracedBody (by decide)).1⟩,
    ⟨by decide, ((parser_two_stage toyParse noisyText).2 (by decide)).1⟩⟩

/-- C7, counterexample: a raw item whose `snippet` sub-object is absent
does not normalize to a record with empty fields; the property read
`item.snippet.title` (src/server.js:350) throws a TypeError that aborts
the map and, with it, the whole fetch, contrary to the claim that the
page and fetch survive. -/
theorem missing_snippet_fails_fetch :
    normalizeItem badItem =
      Except.error "TypeError: cannot read title of undefined" ∧
    fetchPages [Except.ok badPage] [] =
      Except.error "TypeError: cannot read title of undefined" := by
  constructor
  · rfl
  · rfl

/-- C7 amended: normalization tolerates absent leaf fields — an item
whose `id` and `snippet` sub-objects are present normalizes successfully
to a record carrying those possibly-absent field values (absent leaves
become empty/none) — but an absent `snippet` (or `id`) sub-object throws
and fails the whole fetch, as the counterexample shows. -/
theorem normalize_tolerates_missing_fields (item : RawItem) (rid : RawId)
    (s : RawSnippet) (hid : item.id = some rid) (hsnip : item.snippet = some s) :
    normalizeItem item =
      Except.ok ⟨rid.videoId, s.title, s.description, s.channelTitle,
        s.channelId, s.publishedAt, s.thumbnails, s.publishTime⟩ := by
  rw [normalizeItem, hid, hsnip]

theorem normalize_tolerates_missing_fields_witness :
    itemAllEmpty.id = some ⟨none⟩ ∧
    itemAllEmpty.snippet = some ⟨none, none, none, none, none, none, none⟩ ∧
    normalizeItem itemAllEmpty =
      Except.ok ⟨none, none, none, none, none, none, none, none⟩ :=
  ⟨rfl, rfl,
    normalize_tolerates_missing_fields itemAllEmpty ⟨none⟩
      ⟨none, none, none, none, none, none, none⟩ rfl rfl⟩

/-- C9, counterexample: the real pipeline's response and merged analysis
serialize the failure-accounting keys, but the mock generator's response
omits `batchesFailed` and `failedBatchDetails` and its analysis omits
`failed_batches` (src/server.js:683-690 and 653-681 versus 556-565 and
614-623), so the mock does not satisfy the same schema and callers can
distinguish the modes by shape. -/
theorem mock_schema_missing_failure_keys :
    ("batchesFailed" ∈ reportResponseKeys ∧
      "batchesFailed" ∉ mockResponseKeys) ∧
    ("failedBatchDetails" ∈ reportResponseKeys ∧
      "failedBatchDetails" ∉ mockResponseKeys) ∧
    ("failed_batches" ∈ finalAnalysisKeys ∧
      "failed_batches" ∉ mockAnalysisKeys) := by
  decide

/-- C9 amended: the mock response's schema agrees with the real
pipeline's response schema on every key except that it omits the
failure-accounting keys `batchesFailed` and `failedBatchDetails`, and
its analysis omits `failed_batches`; the substitution is therefore not
shape-transparent exactly in those fields. -/
theorem mock_schema_differs_only_in_failure_keys :
    mockResponseKeys = reportResponseKeys.filter
      (fun k => k != "batchesFailed" && k != "failedBatchDetails") ∧
    mockAnalysisKeys = finalAnalysisKeys.filter
      (fun k => k != "failed_batches") := by
  decide

/-- C10: if the pagination stage throws on any page request — not only
the first — the route responds 500 with the upstream message, the body
is a bare error object (every already-fetched video is discarded), and
the dispatch trace is empty: no classification batch is ever
dispatched.  The witness exercises a script whose second page fails
after a successful first page. -/
theorem page_failure_aborts_request (u c : String) (now : Nat)
    (pages : List (Except String RawPage))
    (oracle : Nat → Except String ParsedAnalysis) (msg : String)
    (hu : u ≠ "") (hc : c ≠ "")
    (hfail : fetchPages pages [] = Except.error msg) :
    analyzeRoute u c true true now pages oracle =
      ⟨500, RouteBody.errorBody ("YouTube API error: " ++ msg), []⟩ :=
  analyzeRoute_fetch_error u c now pages oracle msg hu hc hfail

theorem page_failure_aborts_request_witness :
    fetchPages pagesFail2 [] = Except.error "quota exceeded" ∧
    analyzeRoute "Artist" "Chan" true true 0 pagesFail2 oracleAllFail =
      ⟨500, RouteBody.errorBody ("YouTube API error: " ++ "quota exceeded"), []⟩ :=
  ⟨rfl,
    page_failure_aborts_request "Artist" "Chan" 0 pagesFail2 oracleAllFail
      "quota exceeded" (by decide) (by decide) rfl⟩

end Ofek
